import Mathlib

/-!
Shallow embedding of the echo desktop voice-input utility (Rust, `src-tauri/src`),
covering the pieces of the code that the verified properties below are about:

* `vad.rs` — frame/VAD constants and the `VadEvent` verdict type;
* `continuous.rs` — the `VadStateMachine` segmenter (state machine, pre-roll
  buffer, finalization) and the `process_segment` persistence filter of the
  transcription worker;
* `audio_capture.rs` — `FrameAccumulator::push_samples` and the bounded frame
  channel it feeds;
* `clipboard.rs` — `paste_with_restore`;
* `database.rs` — `TranscriptionDb` insert / read-back / search dispatch;
* `handy_keys.rs` — `validate_hotkey`.

Machine integers (`u32`, `usize`) are modelled as `ℕ` with the saturating
float-to-int casts made explicit; `f64`/`f32` arithmetic on the configuration
constants is modelled with exact rationals (all constants involved — 16000,
512, 1.5, 60, 31.25 — are such that the float computations in the source are
exact, except 0.3 whose product 0.3 * 31.25 still rounds to 9.375 in `f64`,
with the same truncation 9). File I/O (WAV writing, SQLite, the clipboard
device, thread sleeps) is modelled as always succeeding; blocking on a full
channel is modelled as an explicit outcome.
-/

namespace Echo

/-! ### vad.rs: constants and verdicts -/

/-- Sample rate for VAD processing (`VAD_SAMPLE_RATE` in `vad.rs`). -/
def VAD_SAMPLE_RATE : ℕ := 16000

/-- Frame size in samples (`VAD_FRAME_SIZE` in `vad.rs`): 512 samples = 32 ms at 16 kHz. -/
def VAD_FRAME_SIZE : ℕ := 512

/-- Result of one VAD frame (`VadEvent` in `vad.rs`). The probability carried by
the `Speech` variant is never inspected by the segmenter (it only does
`matches!(event, VadEvent::Speech { .. })`). -/
inductive VadEvent
  | silence
  | speech (probability : ℚ)
deriving DecidableEq, Repr

/-- The `matches!(event, VadEvent::Speech { .. })` test from `VadStateMachine::process`. -/
def VadEvent.isSpeech : VadEvent → Bool
  | .silence => false
  | .speech _ => true

/-- A captured audio frame: the `Vec<f32>` payload, samples as exact rationals. -/
abbrev Frame := List ℚ

/-! ### Rust numeric casts -/

/-- Rust `x as u32` on an `f64`: truncate toward zero, saturating at the ends.
On a nonnegative rational this is the floor, capped at `u32::MAX`; negative
values saturate to 0 (`Int.toNat` of a negative floor is 0). -/
def ratAsU32 (q : ℚ) : ℕ := min (⌊q⌋.toNat) (2 ^ 32 - 1)

/-- Rust `x as usize` on an `f64` (64-bit target): truncate toward zero,
saturating at the ends. -/
def ratAsUsize (q : ℚ) : ℕ := min (⌊q⌋.toNat) (2 ^ 64 - 1)

/-! ### continuous.rs: the segmenter -/

/-- A finished speech segment (`SpeechSegment` in `continuous.rs`). The Rust
struct holds the path of the WAV file and the duration; the embedding keeps the
file name, the audio frames written to that file, their total sample count, and
the duration (`total_samples as f64 / VAD_SAMPLE_RATE as f64`). -/
structure SpeechSegment where
  index : ℕ
  filename : String
  frames : List Frame
  totalSamples : ℕ
  duration : ℚ
deriving DecidableEq, Repr

instance : Inhabited SpeechSegment := ⟨⟨0, "", [], 0, 0⟩⟩

/-- The segmenter state (`VadStateMachine` in `continuous.rs`). `pre_buffer` is
the `VecDeque`, head = front. -/
structure VadStateMachine where
  is_speaking : Bool
  silence_count : ℕ
  silence_threshold : ℕ
  max_frames : ℕ
  speech_frames : List Frame
  pre_buffer : List Frame
  pre_buffer_max : ℕ
  speech_frame_count : ℕ
  segment_counter : ℕ
deriving DecidableEq, Repr

namespace VadStateMachine

/-- `VadStateMachine::new(silence_sec, max_segment_sec)` from `continuous.rs`:
`frames_per_sec = 16000/512 = 31.25`, thresholds computed with Rust `as u32` /
`as usize` truncation, pre-roll window 0.3 s. -/
def new (silence_sec : ℚ) (max_segment_sec : ℕ) : VadStateMachine :=
  let frames_per_sec : ℚ := (VAD_SAMPLE_RATE : ℚ) / (VAD_FRAME_SIZE : ℚ)
  let pre_buffer_sec : ℚ := 3 / 10
  { is_speaking := false
    silence_count := 0
    silence_threshold := ratAsU32 (silence_sec * frames_per_sec)
    max_frames := ratAsU32 ((max_segment_sec : ℚ) * frames_per_sec)
    speech_frames := []
    pre_buffer := []
    pre_buffer_max := ratAsUsize (pre_buffer_sec * frames_per_sec)
    speech_frame_count := 0
    segment_counter := 0 }

/-- `VadStateMachine::reset` from `continuous.rs`: clears the speaking state but
keeps `segment_counter` and `pre_buffer`. -/
def reset (s : VadStateMachine) : VadStateMachine :=
  { s with is_speaking := false, silence_count := 0,
           speech_frames := [], speech_frame_count := 0 }

/-- `VadStateMachine::finalize_segment` from `continuous.rs`. The WAV write is
modelled as always succeeding (on an `Err` the Rust code returns `None` but
performs the same state update, `segment_counter` increment included). -/
def finalize_segment (s : VadStateMachine) : VadStateMachine × Option SpeechSegment :=
  if s.speech_frames = [] then (s.reset, none)
  else
    let total_samples : ℕ := (s.speech_frames.map List.length).sum
    let duration : ℚ := (total_samples : ℚ) / (VAD_SAMPLE_RATE : ℚ)
    if duration < 1 / 2 then (s.reset, none)
    else
      let counter := s.segment_counter + 1
      let seg : SpeechSegment :=
        { index := counter
          filename := "segment_" ++ toString counter ++ ".wav"
          frames := s.speech_frames
          totalSamples := total_samples
          duration := duration }
      ({ s.reset with segment_counter := counter }, some seg)

/-- The pre-buffer maintenance at the top of the Idle branch of
`VadStateMachine::process`: `push_back(frame)` then `pop_front()` when over
`pre_buffer_max`. -/
def prerollPush (s : VadStateMachine) (frame : Frame) : List Frame :=
  let pb0 := s.pre_buffer ++ [frame]
  if s.pre_buffer_max < pb0.length then pb0.tail else pb0

/-- The state mutation at the top of the InSpeech branch of
`VadStateMachine::process`: append the frame, bump the frame count, and update
the consecutive-silence counter from the verdict. -/
def speakingStep (s : VadStateMachine) (event : VadEvent) (frame : Frame) : VadStateMachine :=
  { s with speech_frames := s.speech_frames ++ [frame]
           speech_frame_count := s.speech_frame_count + 1
           silence_count := if event.isSpeech then 0 else s.silence_count + 1 }

/-- The Idle→InSpeech transition of `VadStateMachine::process`: the pre-buffer
(which at this point already contains the current frame) is drained into
`speech_frames` in order and the current frame is pushed once more. -/
def speechStart (s : VadStateMachine) (frame : Frame) : VadStateMachine :=
  { s with is_speaking := true
           silence_count := 0
           speech_frame_count := 1
           speech_frames := s.prerollPush frame ++ [frame]
           pre_buffer := [] }

/-- `VadStateMachine::process` from `continuous.rs`, one VAD verdict + frame.
Note the source pushes the incoming frame into the pre-roll buffer *before*
testing the verdict, and on an Idle→InSpeech transition drains that buffer
(current frame included) and then pushes the current frame again. -/
def process (s : VadStateMachine) (event : VadEvent) (frame : Frame) :
    VadStateMachine × Option SpeechSegment :=
  let is_speech := event.isSpeech
  if s.is_speaking = false then
    -- Maintain pre-buffer, then transition on a speech verdict
    if is_speech then (s.speechStart frame, none)
    else ({ s with pre_buffer := s.prerollPush frame }, none)
  else
    -- Currently speaking: append the frame, then check the end conditions
    let s' := s.speakingStep event frame
    if s'.silence_threshold ≤ s'.silence_count then s'.finalize_segment
    else if s'.max_frames ≤ s'.speech_frame_count then s'.finalize_segment
    else (s', none)

/-- Run the segmenter over a list of (verdict, frame) pairs, collecting the
emitted segments in order (the `vad_thread` receive loop in `continuous.rs`). -/
def processAll (s : VadStateMachine) :
    List (VadEvent × Frame) → VadStateMachine × List SpeechSegment
  | [] => (s, [])
  | (e, f) :: rest =>
      let step := s.process e f
      let restRun := step.1.processAll rest
      (restRun.1, step.2.toList ++ restRun.2)

/-- One listening session (`vad_thread` in `continuous.rs`): process all frames,
then on stop flush the in-progress utterance through `finalize_segment` if the
machine is still in speech. -/
def runSession (s : VadStateMachine) (inputs : List (VadEvent × Frame)) :
    VadStateMachine × List SpeechSegment :=
  let run := s.processAll inputs
  let flush := if run.1.is_speaking then run.1.finalize_segment else (run.1, none)
  (flush.1, run.2 ++ flush.2.toList)

end VadStateMachine

/-! ### Verdict-trace measures used to state the segmentation properties -/

/-- Number of consecutive `silence` verdicts at the end of a verdict list. -/
def trailingSilenceCount (l : List VadEvent) : ℕ :=
  (l.reverse.takeWhile (fun e => !e.isSpeech)).length

/-- Length of the longest run of consecutive `silence` verdicts in a list. -/
def maxConsecutiveSilence (l : List VadEvent) : ℕ :=
  (l.foldl (fun acc e =>
      let cur := if e.isSpeech then 0 else acc.1 + 1
      (cur, max acc.2 cur)) ((0 : ℕ), (0 : ℕ))).2

/-! ### Rust string primitives, modelled over character lists

Lean's own `String.trim` / `String.splitOn` are defined by well-founded
recursion over byte positions and do not evaluate inside the kernel, so the
embedding models the Rust string operations it needs directly over the
character list of a `String`; on the ASCII text these call sites handle the
semantics agree with Rust's Unicode versions. -/

/-- Rust `str::trim` over the character list: drop whitespace from both ends
(Rust trims Unicode whitespace; agreement on ASCII). -/
def trimChars (s : List Char) : List Char :=
  ((s.dropWhile Char.isWhitespace).reverse.dropWhile Char.isWhitespace).reverse

/-- Rust `str::trim` on a `String`. -/
def trimString (s : String) : String := String.mk (trimChars s.data)

/-- Rust `str::split(sep)` for a `char` separator: split at every occurrence,
keeping empty pieces. -/
def splitOnChar (sep : Char) : List Char → List (List Char)
  | [] => [[]]
  | c :: rest =>
      if c = sep then [] :: splitOnChar sep rest
      else
        match splitOnChar sep rest with
        | [] => [[c]]
        | h :: t => (c :: h) :: t

/-- The UTF-8 byte count Rust's `str::len` reports, over the character list. -/
def utf8Len (s : List Char) : ℕ := (s.map Char.utf8Size).sum

/-! ### continuous.rs: the transcription worker's persistence decision -/

/-- One element of `TranscriptionResult::segments` (`TranscriptionSegment` in
the Rust sources; the source's `end` field is called `stop` here because `end`
is a Lean keyword). -/
structure TranscriptionSegment where
  start : ℚ
  stop : ℚ
  text : String
deriving DecidableEq, Repr

/-- The ASR result handed to the worker (`TranscriptionResult` in `lib.rs` /
`types.rs`): `success`, `text`, `segments`, `language`, `no_speech`. -/
structure TranscriptionResult where
  success : Bool
  text : String
  segments : List TranscriptionSegment
  language : String
  no_speech : Option Bool
deriving DecidableEq, Repr

/-- A transcription history entry (`TranscriptionEntry` in `database.rs`). -/
structure TranscriptionEntry where
  id : Option ℤ
  created_at : String
  duration_seconds : Option ℚ
  text : String
  raw_text : Option String
  language : Option String
  model_name : Option String
  segments_json : Option String
deriving DecidableEq, Repr

/-- The persistence decision of `process_segment` in `continuous.rs` (lines
437-474), applied to an ASR result that has already been obtained: returns the
`TranscriptionEntry` handed to `db.insert`, or `none` when the worker discards
the result (`success == false`, or the trimmed text is empty). `serde` stands
for the external `serde_json::to_string` serializer used for `segments_json`. -/
def process_segment (serde : List TranscriptionSegment → String)
    (duration_seconds : ℚ) (r : TranscriptionResult) : Option TranscriptionEntry :=
  if r.success = false then none
  else
    let text := trimString r.text
    if text = "" then none
    else some
      { id := none
        created_at := ""
        duration_seconds := some duration_seconds
        text := text
        raw_text := none
        language := if r.language = "" then none else some r.language
        model_name := none
        segments_json := if r.segments = [] then none else some (serde r.segments) }

/-! ### clipboard.rs: paste with clipboard preservation -/

/-- Observable outcome of `paste_with_restore`: the clipboard content after the
function returns, and the text delivered to the frontmost application by the
synthetic paste keystroke (= the clipboard content at the moment `send_paste`
runs). -/
structure PasteOutcome where
  final_clipboard : String
  pasted_text : String
deriving DecidableEq, Repr

/-- `paste_with_restore` from `clipboard.rs` (lines 65-93). The clipboard read
is modelled as succeeding with the current content (on failure the source
substitutes `""` via `unwrap_or_default`, which behaves like an empty original);
the two 50 ms sleeps have no observable effect in this model. Step 6 of the
source restores the original content *only when it is non-empty*. -/
def paste_with_restore (clipboard text : String) : PasteOutcome :=
  let original := clipboard
  let clipboardAfterWrite := text
  let pasted := clipboardAfterWrite
  { final_clipboard := if original ≠ "" then original else clipboardAfterWrite
    pasted_text := pasted }

/-! ### database.rs: insert, read-back, search dispatch -/

/-- One row of the `transcriptions` table. `id` is the SQLite rowid
(`INTEGER PRIMARY KEY AUTOINCREMENT`); `created_at` is filled by the column
DEFAULT at insert time. -/
structure DbRow where
  id : ℤ
  created_at : String
  duration_seconds : Option ℚ
  text : String
  raw_text : Option String
  language : Option String
  model_name : Option String
  segments_json : Option String
deriving DecidableEq, Repr

/-- The SQLite store of `TranscriptionDb` (`database.rs`): the rows in insert
order plus the next rowid the AUTOINCREMENT column will assign. -/
structure TranscriptionDb where
  rows : List DbRow
  next_rowid : ℤ
deriving DecidableEq, Repr

namespace TranscriptionDb

/-- A freshly created database (`TranscriptionDb::open` on a new file): no rows,
AUTOINCREMENT starts at 1. -/
def openEmpty : TranscriptionDb := { rows := [], next_rowid := 1 }

/-- `TranscriptionDb::insert` (database.rs lines 95-109): the INSERT statement
lists only `duration_seconds, text, raw_text, language, model_name,
segments_json`; `id` is assigned by AUTOINCREMENT and `created_at` by the
column DEFAULT `datetime('now','localtime')`, modelled by the `now` argument.
Returns the updated store and `last_insert_rowid()`. -/
def insert (db : TranscriptionDb) (entry : TranscriptionEntry) (now : String) :
    TranscriptionDb × ℤ :=
  let id := db.next_rowid
  ({ rows := db.rows ++
      [{ id := id
         created_at := now
         duration_seconds := entry.duration_seconds
         text := entry.text
         raw_text := entry.raw_text
         language := entry.language
         model_name := entry.model_name
         segments_json := entry.segments_json }]
     next_rowid := id + 1 }, id)

/-- `TranscriptionDb::row_to_entry` (database.rs lines 216-227). -/
def row_to_entry (r : DbRow) : TranscriptionEntry :=
  { id := some r.id
    created_at := r.created_at
    duration_seconds := r.duration_seconds
    text := r.text
    raw_text := r.raw_text
    language := r.language
    model_name := r.model_name
    segments_json := r.segments_json }

/-- Reading one entry back by its rowid: the row selection of the SELECT
statements in `get_all`/`search` restricted to a single id, composed with
`row_to_entry` exactly as the source composes `query_map(..., Self::row_to_entry)`. -/
def get_entry (db : TranscriptionDb) (id : ℤ) : Option TranscriptionEntry :=
  (db.rows.find? (fun r => r.id == id)).map row_to_entry

/-- Which query plan `TranscriptionDb::search` takes. -/
inductive SearchPath
  | fts5
  | likeFallback
deriving DecidableEq, Repr

/-- The dispatch at the top of `TranscriptionDb::search` (database.rs lines
133-136 and 161): the FTS5 trigram query runs when `query.chars().count() >= 3`,
the LIKE substring fallback otherwise. Lean's `String.length` counts Unicode
scalar values, exactly like Rust's `chars().count()`. -/
def searchPath (query : String) : SearchPath :=
  if 3 ≤ query.length then .fts5 else .likeFallback

end TranscriptionDb

/-! ### handy_keys.rs: hotkey validation -/

/-- The `allowed_standalone` array in `validate_hotkey`, as character lists. -/
def allowed_standalone : List (List Char) :=
  ["fn".data, "printscreen".data, "scrolllock".data, "pause".data, "insert".data]

/-- The `disallowed_standalone` array in `validate_hotkey`, as character lists. -/
def disallowed_standalone : List (List Char) :=
  ["space".data, "return".data, "enter".data, "tab".data, "escape".data,
   "backspace".data, "delete".data, "up".data, "down".data, "left".data,
   "right".data, "home".data, "end".data, "pageup".data, "pagedown".data]

/-- Rust `str::parse::<u32>()` on strings that contain no sign character (the
inputs here come from splitting on `+`, so no sign can occur): succeeds exactly
on non-empty all-digit strings whose value fits in a `u32`. -/
def parseU32 (s : List Char) : Option ℕ :=
  if s = [] then none
  else if s.all Char.isDigit then
    let n := s.foldl (fun acc c => acc * 10 + (c.toNat - 48)) 0
    if n < 2 ^ 32 then some n else none
  else none

/-- `validate_hotkey` from `handy_keys.rs` (lines 335-376), with the error
message strings elided: `true` is `Ok(())`, `false` is `Err(..)`; registration
(`register_hotkey`, lines 387-395) proceeds past validation only on `true`.
The Rust function lowercases, splits on `+`, and for a single part trims it
and applies the four rules in order. The single-key alphanumeric rejection
tests `key.len() == 1` on *bytes* (`utf8Len` here), which forces the key to be
one ASCII character, on which Rust's Unicode `is_alphanumeric` and Lean's
ASCII `Char.isAlphanum` agree; `to_lowercase`/`trim` likewise agree on ASCII.
`key[1..]` after a `starts_with('f')` test is `drop 1` (the `f` is one byte). -/
def validate_hotkey (hotkey : String) : Bool :=
  let hotkey_lower := hotkey.data.map Char.toLower
  let parts := splitOnChar '+' hotkey_lower
  if parts.length = 1 then
    let key := trimChars parts.headI
    -- Allow function keys (f1-f24)
    if decide (key.head? = some 'f') &&
        ((parseU32 (key.drop 1)).map (fun n => decide (1 ≤ n ∧ n ≤ 24))).getD false then
      true
    -- Allow special standalone keys
    else if allowed_standalone.contains key then
      true
    -- Reject single alphanumeric characters
    else if utf8Len key = 1 && ((key.head?).map Char.isAlphanum).getD false then
      false
    -- Reject common keys that would interfere with normal typing
    else if disallowed_standalone.contains key then
      false
    else
      true
  else
    true

/-- The ASCII alphanumeric characters: every single printable alphanumeric key. -/
def asciiAlphanumerics : List Char :=
  ((List.range 128).map Char.ofNat).filter Char.isAlphanum

/-! ### audio_capture.rs: the frame producer and the bounded frame queue -/

/-- `STREAM_FRAME_SIZE` from `audio_capture.rs`. -/
def STREAM_FRAME_SIZE : ℕ := 512

/-- Capacity of the frame queue created by `ContinuousPipeline::start`
(`channel::bounded::<Vec<f32>>(256)` in `continuous.rs` line 90). -/
def continuousFrameQueueCapacity : ℕ := 256

/-- The bounded crossbeam channel between the frame producer and the VAD
thread: its capacity and the frames currently queued (head = oldest). -/
structure FrameChannel where
  capacity : ℕ
  queued : List Frame
deriving DecidableEq, Repr

/-- Semantics of `crossbeam_channel::Sender::send` on a bounded channel whose
receiver is still connected: when there is room the frame is appended and the
call returns; when the channel is full the calling thread *blocks* until the
consumer drains an element. The blocked case is modelled as `none`. -/
def FrameChannel.send (ch : FrameChannel) (f : Frame) : Option FrameChannel :=
  if ch.queued.length < ch.capacity then some { ch with queued := ch.queued ++ [f] }
  else none

/-- Outcome of one `push_samples` call: either the callback returns with the
leftover (<512 sample) buffer and the updated channel, or it is parked inside
`send` holding a drained frame while the channel is full. -/
inductive PushResult
  | completed (buffered : List ℚ) (chan : FrameChannel)
  | blockedInSend (pending : Frame) (buffered : List ℚ) (chan : FrameChannel)
deriving DecidableEq, Repr

/-- The loop body of the frame emission in `FrameAccumulator::push_samples`,
with explicit fuel (each iteration consumes 512 > 0 buffered samples, so
`buffer.length` rounds of fuel always suffice; the fuel only makes the
recursion structural). -/
def emitFramesAux (ch : FrameChannel) : ℕ → List ℚ → PushResult
  | 0, buffer => .completed buffer ch
  | fuel + 1, buffer =>
    if STREAM_FRAME_SIZE ≤ buffer.length then
      let frame : Frame := buffer.take STREAM_FRAME_SIZE
      let rest := buffer.drop STREAM_FRAME_SIZE
      match ch.send frame with
      | some ch' => emitFramesAux ch' fuel rest
      | none => .blockedInSend frame rest ch
    else .completed buffer ch

/-- The frame-emission loop at the end of `FrameAccumulator::push_samples`
(audio_capture.rs lines 536-544): while at least `STREAM_FRAME_SIZE` samples
are buffered, drain 512 samples into a frame and `send` it. A full channel
leaves the callback blocked inside `send` with the drained frame pending. -/
def emitFrames (buffer : List ℚ) (ch : FrameChannel) : PushResult :=
  emitFramesAux ch buffer.length buffer

/-- The channel-independent front of `FrameAccumulator::push_samples`: downmix
interleaved input to mono by arithmetic mean across channels. Rust divides by
`native_channels` even for a ragged final chunk, as here. -/
def downmixMono (native_channels : ℕ) (data : List ℚ) : List ℚ :=
  if native_channels = 1 then data
  else (data.toChunks native_channels).map (fun chunk => chunk.sum / (native_channels : ℚ))

/-- The `FrameAccumulator` of `audio_capture.rs` in the native-16 kHz
configuration (`native_rate == VAD_SAMPLE_RATE`, `resampler == None`), the
configuration in which `push_samples` appends the mono samples directly to
`output_buffer`; the enqueue loop under scrutiny is identical in both
configurations. -/
structure FrameAccumulator where
  native_channels : ℕ
  output_buffer : List ℚ
deriving DecidableEq, Repr

/-- `FrameAccumulator::push_samples` (audio_capture.rs lines 499-544) in the
native-16 kHz configuration: downmix to mono, append to the buffer, then emit
complete 512-sample frames through the bounded channel. -/
def FrameAccumulator.push_samples (acc : FrameAccumulator) (ch : FrameChannel)
    (data : List ℚ) : PushResult :=
  emitFrames (acc.output_buffer ++ downmixMono acc.native_channels data) ch

/-- Modelled from the spec sentences behind claim C4 (the behavior the claim
asserts, which is what a `try_send` would do): whenever the channel is full the
drained frame is dropped, a drop counter is incremented, and the loop goes on
without blocking. The source contains neither a `try_send` nor any drop
counter; this definition exists only to be compared against
`FrameAccumulator.push_samples`. -/
def specEmitFramesNonBlockingAux : ℕ → List ℚ → FrameChannel → ℕ →
    List ℚ × FrameChannel × ℕ
  | 0, buffer, ch, dropped => (buffer, ch, dropped)
  | fuel + 1, buffer, ch, dropped =>
    if STREAM_FRAME_SIZE ≤ buffer.length then
      let frame : Frame := buffer.take STREAM_FRAME_SIZE
      let rest := buffer.drop STREAM_FRAME_SIZE
      match ch.send frame with
      | some ch' => specEmitFramesNonBlockingAux fuel rest ch' dropped
      | none => specEmitFramesNonBlockingAux fuel rest ch (dropped + 1)
    else (buffer, ch, dropped)

/-- The claimed loop, at sufficient fuel. -/
def specEmitFramesNonBlocking (buffer : List ℚ) (ch : FrameChannel) (dropped : ℕ) :
    List ℚ × FrameChannel × ℕ :=
  specEmitFramesNonBlockingAux buffer.length buffer ch dropped

namespace VadStateMachine

/-- The sample total of the segment produced by `finalize_segment` on a
non-empty frame list. -/
def pendingSamples (s : VadStateMachine) : ℕ := (s.speech_frames.map List.length).sum

/-- The segment `finalize_segment` emits when it does emit. -/
def pendingSegment (s : VadStateMachine) : SpeechSegment :=
  { index := s.segment_counter + 1
    filename := "segment_" ++ toString (s.segment_counter + 1) ++ ".wav"
    frames := s.speech_frames
    totalSamples := s.pendingSamples
    duration := (s.pendingSamples : ℚ) / (VAD_SAMPLE_RATE : ℚ) }

/-- The invariant the segmenter maintains along a run, relative to the list of
verdicts processed so far: when idle the speaking fields are clear; when in
speech the consecutive-silence counter equals the trailing silence run of the
verdict trace, the frame counter under-approximates the segment buffer by at
most the pre-roll size, and the counters are within the bounds the end
conditions enforce; the pre-roll ring never exceeds its capacity. -/
def StateInv (s : VadStateMachine) (v : List VadEvent) : Prop :=
  (s.is_speaking = false → s.silence_count = 0 ∧ s.speech_frames = [] ∧ s.speech_frame_count = 0)
  ∧ (s.is_speaking = true →
      s.silence_count = trailingSilenceCount v
      ∧ s.speech_frame_count ≤ s.speech_frames.length
      ∧ s.speech_frames.length ≤ s.speech_frame_count + s.pre_buffer_max
      ∧ 1 ≤ s.speech_frame_count
      ∧ s.speech_frame_count ≤ max (s.max_frames - 1) 1)
  ∧ s.pre_buffer.length ≤ s.pre_buffer_max

/-- All frames stored anywhere in the segmenter have 512 samples, provided all
frames fed to it do. -/
def Frames512 (s : VadStateMachine) : Prop :=
  (∀ g ∈ s.pre_buffer, List.length g = 512) ∧ (∀ g ∈ s.speech_frames, List.length g = 512)

end VadStateMachine

/-- An all-zero 512-sample (32 ms) frame, used as concrete audio content in the
closed instances below. -/
def zeroFrame : Frame := List.replicate 512 0

/-- Concrete verdict sequence for the silence-tail boundary: one speech verdict
followed by 46 consecutive silence verdicts, at the default configuration
(silence_tail = 1.5 s, max_segment = 60 s). -/
def c1CexInputs : List (VadEvent × Frame) :=
  (VadEvent.speech 1, zeroFrame) :: List.replicate 46 (VadEvent.silence, zeroFrame)

/-- The first 46 of the inputs above: one speech verdict then 45 silences. -/
def c1WitPre : List (VadEvent × Frame) :=
  (VadEvent.speech 1, zeroFrame) :: List.replicate 45 (VadEvent.silence, zeroFrame)

/-- The segment emitted at the 46th consecutive silence verdict of the default
configuration. -/
def c1WitSeg : SpeechSegment :=
  ((((VadStateMachine.new (3 / 2) 60).processAll c1WitPre).1).process
    VadEvent.silence zeroFrame).2.getD default

/-- Concrete inputs for the forced-split overshoot: with max_segment = 1 s
(max_frames = 31) and a silence threshold that never fires, one pre-roll
silence frame followed by continuous speech. -/
def c3CexInputs : List (VadEvent × Frame) :=
  (VadEvent.silence, zeroFrame) :: List.replicate 32 (VadEvent.speech 1, zeroFrame)

/-- Concrete inputs emitting one well-formed segment: with silence_sec = 0.5
(threshold 15), one speech verdict then 15 silences, 17 frames = 8704 samples. -/
def c3WitInputs : List (VadEvent × Frame) :=
  (VadEvent.speech 1, zeroFrame) :: List.replicate 15 (VadEvent.silence, zeroFrame)

/-- The single segment of the session over `c3WitInputs`. -/
def c3WitSeg : SpeechSegment :=
  (((VadStateMachine.new (1 / 2) 60).runSession c3WitInputs).2).headI

/-- A frame of all-zero samples distinct from `c2SpeechFrame`, fed with a
silence verdict. -/
def c2SilenceFrame : Frame := List.replicate 512 0

/-- A frame of constant one-half samples, fed with the first speech verdict. -/
def c2SpeechFrame : Frame := List.replicate 512 (1 / 2)

/-- An ASR result with `no_speech = true` but a successful, non-empty
transcription. -/
def c5NoSpeechResult : TranscriptionResult :=
  { success := true, text := "hello", segments := [], language := "en",
    no_speech := some true }

/-- A successful ASR result with surrounding whitespace in its text. -/
def c5WitResult : TranscriptionResult :=
  { success := true, text := "  hello  ", segments := [], language := "en",
    no_speech := none }

/-- A sample history entry, mirroring the shape of the entries the worker
inserts. -/
def c7SampleEntry : TranscriptionEntry :=
  { id := none, created_at := "", duration_seconds := some (5 / 2),
    text := "hello world", raw_text := none, language := some "en",
    model_name := some "qwen3-asr", segments_json := none }

/-- The continuous-mode frame queue, full: capacity 256 with 256 frames
queued. -/
def c4FullChannel : FrameChannel :=
  { capacity := continuousFrameQueueCapacity
    queued := List.replicate 256 ([] : Frame) }

/-- A fresh accumulator for a mono 16 kHz device. -/
def c4Accumulator : FrameAccumulator := { native_channels := 1, output_buffer := [] }

/-- One callback delivering exactly 512 zero samples. -/
def c4Data : List ℚ := List.replicate 512 0

/-! ### Structural lemmas about the segmenter -/

namespace VadStateMachine

/-- Case analysis of `finalize_segment`: discard because empty, discard because
shorter than 0.5 s, or emit. -/
theorem finalize_cases (s : VadStateMachine) :
    (s.speech_frames = [] ∧ s.finalize_segment = (s.reset, none))
    ∨ (s.speech_frames ≠ [] ∧ ((s.pendingSamples : ℚ) / (VAD_SAMPLE_RATE : ℚ) < 1 / 2)
        ∧ s.finalize_segment = (s.reset, none))
    ∨ (s.speech_frames ≠ [] ∧ ¬((s.pendingSamples : ℚ) / (VAD_SAMPLE_RATE : ℚ) < 1 / 2)
        ∧ s.finalize_segment
            = ({ s.reset with segment_counter := s.segment_counter + 1 }, some s.pendingSegment)) := by
  by_cases h1 : s.speech_frames = []
  · exact Or.inl ⟨h1, by simp [finalize_segment, h1]⟩
  · by_cases h2 : ((s.pendingSamples : ℚ) / (VAD_SAMPLE_RATE : ℚ) < 1 / 2)
    · refine Or.inr (Or.inl ⟨h1, h2, ?_⟩)
      simp only [finalize_segment, h1, if_false, if_neg, pendingSamples] at *
      simp [pendingSamples] at h2
      simp [h2]
    · refine Or.inr (Or.inr ⟨h1, h2, ?_⟩)
      simp only [finalize_segment, h1, if_false, pendingSamples, pendingSegment] at *
      simp [pendingSamples] at h2
      simp [h2, pendingSamples, pendingSegment]

theorem finalize_fst (s : VadStateMachine) :
    (s.finalize_segment).1 = s.reset
    ∨ (s.finalize_segment).1 = { s.reset with segment_counter := s.segment_counter + 1 } := by
  rcases finalize_cases s with ⟨_, h⟩ | ⟨_, _, h⟩ | ⟨_, _, h⟩ <;> rw [h]
  · exact Or.inl rfl
  · exact Or.inl rfl
  · exact Or.inr rfl

theorem finalize_post (s : VadStateMachine) :
    (s.finalize_segment).1.is_speaking = false
    ∧ (s.finalize_segment).1.silence_count = 0
    ∧ (s.finalize_segment).1.speech_frames = []
    ∧ (s.finalize_segment).1.speech_frame_count = 0
    ∧ (s.finalize_segment).1.pre_buffer = s.pre_buffer
    ∧ (s.finalize_segment).1.pre_buffer_max = s.pre_buffer_max
    ∧ (s.finalize_segment).1.silence_threshold = s.silence_threshold
    ∧ (s.finalize_segment).1.max_frames = s.max_frames := by
  rcases finalize_fst s with h | h <;> rw [h] <;> simp [reset]

/-- When `finalize_segment` emits, the segment is `pendingSegment`, it has at
least 8000 samples, and the counter advances by one. -/
theorem finalize_some (s : VadStateMachine) (seg : SpeechSegment)
    (h : (s.finalize_segment).2 = some seg) :
    seg = s.pendingSegment
    ∧ seg.totalSamples = s.pendingSamples
    ∧ 8000 ≤ seg.totalSamples
    ∧ seg.index = s.segment_counter + 1
    ∧ (s.finalize_segment).1.segment_counter = s.segment_counter + 1 := by
  rcases finalize_cases s with ⟨_, heq⟩ | ⟨_, _, heq⟩ | ⟨hne, hdur, heq⟩ <;> rw [heq] at h
  · simp at h
  · simp at h
  · simp only [Option.some.injEq] at h
    subst h
    refine ⟨rfl, rfl, ?_, rfl, by rw [heq]⟩
    rw [not_lt] at hdur
    have h16 : ((VAD_SAMPLE_RATE : ℕ) : ℚ) = 16000 := by norm_num [VAD_SAMPLE_RATE]
    rw [h16, le_div_iff₀ (by norm_num : (0 : ℚ) < 16000)] at hdur
    have h8 : (8000 : ℚ) ≤ (s.pendingSamples : ℚ) := by linarith
    exact_mod_cast h8

theorem finalize_none (s : VadStateMachine)
    (h : (s.finalize_segment).2 = none) :
    (s.finalize_segment).1.segment_counter = s.segment_counter := by
  rcases finalize_cases s with ⟨_, heq⟩ | ⟨_, _, heq⟩ | ⟨_, _, heq⟩ <;> rw [heq] at h ⊢
  · simp [reset]
  · simp [reset]
  · simp at h

/-- Case analysis of `process`: the idle transition, the idle wait, the
InSpeech step that hits an end condition (finalize), and the InSpeech step
that keeps accumulating. -/
theorem process_cases (s : VadStateMachine) (e : VadEvent) (f : Frame) :
    (s.is_speaking = false ∧ e.isSpeech = true ∧ s.process e f = (s.speechStart f, none))
    ∨ (s.is_speaking = false ∧ e.isSpeech = false
        ∧ s.process e f = ({ s with pre_buffer := s.prerollPush f }, none))
    ∨ (s.is_speaking = true
        ∧ ((s.speakingStep e f).silence_threshold ≤ (s.speakingStep e f).silence_count
            ∨ (s.speakingStep e f).max_frames ≤ (s.speakingStep e f).speech_frame_count)
        ∧ s.process e f = (s.speakingStep e f).finalize_segment)
    ∨ (s.is_speaking = true
        ∧ ¬((s.speakingStep e f).silence_threshold ≤ (s.speakingStep e f).silence_count)
        ∧ ¬((s.speakingStep e f).max_frames ≤ (s.speakingStep e f).speech_frame_count)
        ∧ s.process e f = (s.speakingStep e f, none)) := by
  by_cases hspk : s.is_speaking = false
  · cases he : e.isSpeech
    · exact Or.inr (Or.inl ⟨hspk, rfl, by simp [process, hspk, he]⟩)
    · exact Or.inl ⟨hspk, rfl, by simp [process, hspk, he]⟩
  · have hspk' : s.is_speaking = true := by
      cases h : s.is_speaking
      · exact absurd h hspk
      · rfl
    by_cases h1 : (s.speakingStep e f).silence_threshold ≤ (s.speakingStep e f).silence_count
    · exact Or.inr (Or.inr (Or.inl ⟨hspk', Or.inl h1, by simp [process, hspk', h1]⟩))
    · by_cases h2 : (s.speakingStep e f).max_frames ≤ (s.speakingStep e f).speech_frame_count
      · exact Or.inr (Or.inr (Or.inl ⟨hspk', Or.inr h2, by simp [process, hspk', h1, h2]⟩))
      · exact Or.inr (Or.inr (Or.inr ⟨hspk', h1, h2, by simp [process, hspk', h1, h2]⟩))

theorem process_config (s : VadStateMachine) (e : VadEvent) (f : Frame) :
    (s.process e f).1.silence_threshold = s.silence_threshold
    ∧ (s.process e f).1.max_frames = s.max_frames
    ∧ (s.process e f).1.pre_buffer_max = s.pre_buffer_max := by
  rcases process_cases s e f with ⟨_, _, heq⟩ | ⟨_, _, heq⟩ | ⟨_, _, heq⟩ | ⟨_, _, _, heq⟩ <;>
    rw [heq]
  · simp [speechStart]
  · simp
  · refine ⟨?_, ?_, ?_⟩ <;>
      simp [(finalize_post _).2.2.2.2.2.2.1, (finalize_post _).2.2.2.2.2.2.2,
        (finalize_post _).2.2.2.2.2.1, speakingStep]
  · simp [speakingStep]

theorem processAll_config (inputs : List (VadEvent × Frame)) (s : VadStateMachine) :
    (s.processAll inputs).1.silence_threshold = s.silence_threshold
    ∧ (s.processAll inputs).1.max_frames = s.max_frames
    ∧ (s.processAll inputs).1.pre_buffer_max = s.pre_buffer_max := by
  induction inputs generalizing s with
  | nil => simp [processAll]
  | cons p rest ih =>
      obtain ⟨e, f⟩ := p
      have hp := process_config s e f
      have hr := ih (s.process e f).1
      simp only [processAll]
      exact ⟨hr.1.trans hp.1, hr.2.1.trans hp.2.1, hr.2.2.trans hp.2.2⟩

theorem process_counter_none (s : VadStateMachine) (e : VadEvent) (f : Frame)
    (h : (s.process e f).2 = none) :
    (s.process e f).1.segment_counter = s.segment_counter := by
  rcases process_cases s e f with ⟨_, _, heq⟩ | ⟨_, _, heq⟩ | ⟨_, _, heq⟩ | ⟨_, _, _, heq⟩ <;>
    rw [heq] at h ⊢ <;>
    first
      | rfl
      | (have hcn := finalize_none _ h; rw [hcn]; rfl)

theorem process_counter_some (s : VadStateMachine) (e : VadEvent) (f : Frame)
    (seg : SpeechSegment) (h : (s.process e f).2 = some seg) :
    seg.index = s.segment_counter + 1
    ∧ (s.process e f).1.segment_counter = s.segment_counter + 1 := by
  rcases process_cases s e f with ⟨_, _, heq⟩ | ⟨_, _, heq⟩ | ⟨_, _, heq⟩ | ⟨_, _, _, heq⟩ <;>
    rw [heq] at h ⊢
  · simp at h
  · simp at h
  · have hs := finalize_some _ _ h
    refine ⟨?_, ?_⟩
    · rw [hs.2.2.2.1]; simp [speakingStep]
    · rw [hs.2.2.2.2]; simp [speakingStep]
  · simp at h

end VadStateMachine

theorem trailingSilenceCount_append (v : List VadEvent) (e : VadEvent) :
    trailingSilenceCount (v ++ [e])
      = if e.isSpeech then 0 else trailingSilenceCount v + 1 := by
  unfold trailingSilenceCount
  rw [List.reverse_append]
  cases e <;> simp [VadEvent.isSpeech, List.takeWhile]

namespace VadStateMachine

theorem stateInv_new (silence_sec : ℚ) (max_segment_sec : ℕ) :
    StateInv (new silence_sec max_segment_sec) [] := by
  refine ⟨fun _ => ⟨rfl, rfl, rfl⟩, fun h => ?_, ?_⟩
  · exact absurd h (by simp [new])
  · simp [new]

theorem prerollPush_length (s : VadStateMachine) (f : Frame)
    (h : s.pre_buffer.length ≤ s.pre_buffer_max) :
    (s.prerollPush f).length ≤ s.pre_buffer_max := by
  simp only [prerollPush]
  split <;> rename_i hlen <;> simp at hlen ⊢ <;> omega

theorem stateInv_process (s : VadStateMachine) (v : List VadEvent)
    (e : VadEvent) (f : Frame) (hInv : StateInv s v) :
    StateInv (s.process e f).1 (v ++ [e]) := by
  obtain ⟨hIdle, hSpeak, hPB⟩ := hInv
  rcases process_cases s e f with ⟨hspk, hsp, heq⟩ | ⟨hspk, hsp, heq⟩
    | ⟨hspk, _, heq⟩ | ⟨hspk, h1, h2, heq⟩ <;> rw [heq]
  · -- Idle → InSpeech transition
    have hpb := prerollPush_length s f hPB
    refine ⟨fun h => by simp [speechStart] at h, fun _ => ⟨?_, ?_, ?_, ?_, ?_⟩,
      by simp [speechStart]⟩
    · simp [speechStart, trailingSilenceCount_append, hsp]
    · simp [speechStart]
    · simp [speechStart]; omega
    · simp [speechStart]
    · simp only [speechStart]
      exact le_max_right _ _
  · -- Idle, staying idle
    specialize hIdle hspk
    refine ⟨fun _ => by simpa using hIdle, fun h => ?_, ?_⟩
    · exact absurd h (by simp [hspk])
    · simpa using prerollPush_length s f hPB
  · -- InSpeech, end condition hit: finalize resets the speaking state
    have hp := finalize_post (s.speakingStep e f)
    refine ⟨fun _ => ⟨hp.2.1, hp.2.2.1, hp.2.2.2.1⟩, fun h => ?_, ?_⟩
    · rw [hp.1] at h; cases h
    · rw [hp.2.2.2.2.1, hp.2.2.2.2.2.1]
      simpa [speakingStep] using hPB
  · -- InSpeech, still accumulating
    specialize hSpeak hspk
    obtain ⟨htr, hc_len, hlen_c, h1c, hcmax⟩ := hSpeak
    refine ⟨fun h => by simp [speakingStep] at h; simp [h] at hspk,
            fun _ => ⟨?_, ?_, ?_, ?_, ?_⟩, by simpa [speakingStep] using hPB⟩
    · simp only [speakingStep, trailingSilenceCount_append]
      cases he : e.isSpeech <;> simp [he, htr]
    · simp [speakingStep]; omega
    · simp [speakingStep]; omega
    · simp [speakingStep]
    · simp only [speakingStep, not_le] at h2 ⊢
      simp at h2 ⊢
      omega

theorem stateInv_processAll (inputs : List (VadEvent × Frame)) (s : VadStateMachine)
    (v : List VadEvent) (hInv : StateInv s v) :
    StateInv (s.processAll inputs).1 (v ++ inputs.map Prod.fst) := by
  induction inputs generalizing s v with
  | nil => simpa [processAll]
  | cons p rest ih =>
      obtain ⟨e, f⟩ := p
      have h1 := stateInv_process s v e f hInv
      have h2 := ih (s.process e f).1 (v ++ [e]) h1
      simpa [processAll, List.append_assoc] using h2

/-- A segment can only be emitted by a `process` step taken in the InSpeech
state, and only when one of the two end conditions of the source holds on the
updated counters: the consecutive-silence counter reached `silence_threshold`
(in which case the verdict trace ends in at least `silence_threshold` silence
verdicts), or the frames-since-speech-started counter reached `max_frames`. -/
theorem process_some_trigger (s : VadStateMachine) (v : List VadEvent)
    (e : VadEvent) (f : Frame) (seg : SpeechSegment) (hInv : StateInv s v)
    (h : (s.process e f).2 = some seg) :
    s.is_speaking = true
    ∧ (s.silence_threshold ≤ trailingSilenceCount (v ++ [e])
        ∨ s.max_frames ≤ s.speech_frame_count + 1) := by
  obtain ⟨hIdle, hSpeak, hPB⟩ := hInv
  rcases process_cases s e f with ⟨hspk, hsp, heq⟩ | ⟨hspk, hsp, heq⟩
    | ⟨hspk, htrig, heq⟩ | ⟨hspk, h1, h2, heq⟩ <;> rw [heq] at h
  · simp at h
  · simp at h
  · refine ⟨hspk, ?_⟩
    rcases htrig with htr | htr
    · left
      simp only [speakingStep] at htr
      rw [trailingSilenceCount_append]
      cases he : e.isSpeech
      · simp only [he] at htr ⊢
        simp only [if_neg Bool.false_ne_true] at htr ⊢
        rw [← (hSpeak hspk).1]
        omega
      · simp only [he] at htr ⊢
        simp at htr ⊢
        omega
    · right
      simpa [speakingStep] using htr
  · simp at h

theorem frames512_new (silence_sec : ℚ) (max_segment_sec : ℕ) :
    Frames512 (new silence_sec max_segment_sec) := by
  constructor <;> simp [new]

theorem frames512_prerollPush (s : VadStateMachine) (f : Frame)
    (hs : ∀ g ∈ s.pre_buffer, List.length g = 512) (hf : f.length = 512) :
    ∀ g ∈ s.prerollPush f, List.length g = 512 := by
  simp only [prerollPush]
  intro g hg
  split at hg
  · have : g ∈ s.pre_buffer ++ [f] := List.mem_of_mem_tail hg
    rcases List.mem_append.1 this with h | h
    · exact hs g h
    · simp at h; subst h; exact hf
  · rcases List.mem_append.1 hg with h | h
    · exact hs g h
    · simp at h; subst h; exact hf

theorem frames512_process (s : VadStateMachine) (e : VadEvent) (f : Frame)
    (hs : Frames512 s) (hf : f.length = 512) :
    Frames512 (s.process e f).1 := by
  obtain ⟨hPB, hSF⟩ := hs
  rcases process_cases s e f with ⟨_, _, heq⟩ | ⟨_, _, heq⟩
    | ⟨_, _, heq⟩ | ⟨_, _, _, heq⟩ <;> rw [heq]
  · refine ⟨by simp [speechStart], ?_⟩
    simp only [speechStart]
    intro g hg
    rcases List.mem_append.1 hg with h | h
    · exact frames512_prerollPush s f hPB hf g h
    · simp at h; subst h; exact hf
  · exact ⟨fun g hg => frames512_prerollPush s f hPB hf g hg, fun g hg => hSF g hg⟩
  · have hp := finalize_post (s.speakingStep e f)
    refine ⟨?_, ?_⟩
    · rw [hp.2.2.2.2.1]
      simpa [speakingStep] using hPB
    · rw [hp.2.2.1]; simp
  · refine ⟨fun g hg => hPB g (by simpa [speakingStep] using hg), ?_⟩
    simp only [speakingStep]
    intro g hg
    rcases List.mem_append.1 hg with h | h
    · exact hSF g h
    · simp at h; subst h; exact hf

theorem sum_map_length_512 (L : List Frame) (h : ∀ g ∈ L, List.length g = 512) :
    (L.map List.length).sum = L.length * 512 := by
  induction L with
  | nil => simp
  | cons a t ih =>
      simp only [List.map_cons, List.sum_cons, List.length_cons]
      rw [h a (List.mem_cons_self a t), ih (fun g hg => h g (List.mem_cons_of_mem a hg))]
      ring

/-- Sample-count bounds for a segment emitted by a `process` step: at least
8000 samples (the 0.5 s guard) and at most `(max max_frames 2 + pre_buffer_max) * 512`
samples (the forced-split bound plus the pre-roll, onset duplicate included). -/
theorem process_some_samples (s : VadStateMachine) (v : List VadEvent)
    (e : VadEvent) (f : Frame) (seg : SpeechSegment)
    (hInv : StateInv s v) (h512 : Frames512 s) (hf : f.length = 512)
    (h : (s.process e f).2 = some seg) :
    8000 ≤ seg.totalSamples
    ∧ seg.totalSamples ≤ (max s.max_frames 2 + s.pre_buffer_max) * 512 := by
  obtain ⟨hIdle, hSpeak, hPB⟩ := hInv
  rcases process_cases s e f with ⟨_, _, heq⟩ | ⟨_, _, heq⟩
    | ⟨hspk, _, heq⟩ | ⟨_, _, _, heq⟩ <;> rw [heq] at h
  · simp at h
  · simp at h
  · have hfin := finalize_some _ _ h
    refine ⟨hfin.2.2.1, ?_⟩
    obtain ⟨htr, hc_len, hlen_c, h1c, hcmax⟩ := hSpeak hspk
    have hall : ∀ g ∈ (s.speakingStep e f).speech_frames, List.length g = 512 := by
      simp only [speakingStep]
      intro g hg
      rcases List.mem_append.1 hg with hh | hh
      · exact h512.2 g hh
      · simp at hh; subst hh; exact hf
    have hsum : (s.speakingStep e f).pendingSamples
        = (s.speakingStep e f).speech_frames.length * 512 :=
      sum_map_length_512 _ hall
    have hlen : (s.speakingStep e f).speech_frames.length
        ≤ max s.max_frames 2 + s.pre_buffer_max := by
      simp only [speakingStep, List.length_append, List.length_cons, List.length_nil]
      have : s.max_frames - 1 ⊔ 1 + 1 ≤ s.max_frames ⊔ 2 := by omega
      omega
    rw [hfin.2.1, hsum]
    exact Nat.mul_le_mul_right 512 hlen
  · simp at h

/-- Sample-count bounds for the flush performed on stop
(`finalize_segment` called from the stop path of the VAD thread). -/
theorem finalize_some_samples (s : VadStateMachine) (v : List VadEvent)
    (seg : SpeechSegment) (hInv : StateInv s v) (h512 : Frames512 s)
    (h : (s.finalize_segment).2 = some seg) :
    8000 ≤ seg.totalSamples
    ∧ seg.totalSamples ≤ (max s.max_frames 2 + s.pre_buffer_max) * 512 := by
  have hfin := finalize_some _ _ h
  refine ⟨hfin.2.2.1, ?_⟩
  have hsum : s.pendingSamples = s.speech_frames.length * 512 :=
    sum_map_length_512 _ h512.2
  by_cases hspk : s.is_speaking = true
  · obtain ⟨htr, hc_len, hlen_c, h1c, hcmax⟩ := hInv.2.1 hspk
    have hlen : s.speech_frames.length ≤ max s.max_frames 2 + s.pre_buffer_max := by
      have : s.max_frames - 1 ⊔ 1 ≤ s.max_frames ⊔ 2 := by omega
      omega
    rw [hfin.2.1, hsum]
    exact Nat.mul_le_mul_right 512 hlen
  · have hfalse : s.is_speaking = false := by
      cases hb : s.is_speaking
      · rfl
      · exact absurd hb hspk
    have : s.speech_frames = [] := (hInv.1 hfalse).2.1
    have h0 : s.pendingSamples = 0 := by simp [pendingSamples, this]
    have h8 := hfin.2.2.1
    rw [hfin.2.1, h0] at h8
    omega

theorem frames512_processAll (inputs : List (VadEvent × Frame)) (s : VadStateMachine)
    (hs : Frames512 s) (hin : ∀ p ∈ inputs, (Prod.snd p : Frame).length = 512) :
    Frames512 (s.processAll inputs).1 := by
  induction inputs generalizing s with
  | nil => simpa [processAll]
  | cons p rest ih =>
      obtain ⟨e, f⟩ := p
      have h1 := frames512_process s e f hs (hin (e, f) (List.mem_cons_self _ _))
      have h2 := ih (s.process e f).1 h1 (fun q hq => hin q (List.mem_cons_of_mem _ hq))
      simpa [processAll] using h2

/-- Sample-count bounds for every segment emitted while processing a frame
sequence from an invariant-satisfying state. -/
theorem processAll_samples (inputs : List (VadEvent × Frame)) (s : VadStateMachine)
    (v : List VadEvent) (hInv : StateInv s v) (h512 : Frames512 s)
    (hin : ∀ p ∈ inputs, (Prod.snd p : Frame).length = 512) :
    ∀ seg ∈ (s.processAll inputs).2,
      8000 ≤ seg.totalSamples
      ∧ seg.totalSamples ≤ (max s.max_frames 2 + s.pre_buffer_max) * 512 := by
  induction inputs generalizing s v with
  | nil => simp [processAll]
  | cons p rest ih =>
      obtain ⟨e, f⟩ := p
      intro seg hseg
      have hf : f.length = 512 := hin (e, f) (List.mem_cons_self _ _)
      simp only [processAll, List.mem_append] at hseg
      rcases hseg with hemit | hrest
      · have : (s.process e f).2 = some seg := by
          cases hout : (s.process e f).2 <;> rw [hout] at hemit <;> simp at hemit
          rw [hemit]
        exact process_some_samples s v e f seg ⟨hInv.1, hInv.2.1, hInv.2.2⟩ h512 hf this
      · have hInv' := stateInv_process s v e f ⟨hInv.1, hInv.2.1, hInv.2.2⟩
        have h512' := frames512_process s e f h512 hf
        have hcfg := process_config s e f
        have := ih (s.process e f).1 (v ++ [e]) hInv' h512'
          (fun q hq => hin q (List.mem_cons_of_mem _ hq)) seg hrest
        rwa [hcfg.2.1, hcfg.2.2] at this

/-- The indices of the segments emitted along a run are consecutive, starting
one above the counter value at the start of the run, and the counter advances
by exactly the number of emitted segments. -/
theorem processAll_indices (inputs : List (VadEvent × Frame)) (s : VadStateMachine) :
    ((s.processAll inputs).2).map SpeechSegment.index
      = List.range' (s.segment_counter + 1) ((s.processAll inputs).2).length
    ∧ (s.processAll inputs).1.segment_counter
      = s.segment_counter + ((s.processAll inputs).2).length := by
  induction inputs generalizing s with
  | nil => simp [processAll]
  | cons p rest ih =>
      obtain ⟨e, f⟩ := p
      have hr := ih (s.process e f).1
      simp only [processAll]
      cases hout : (s.process e f).2 with
      | none =>
          have hc := process_counter_none s e f hout
          rw [hc] at hr
          simpa using hr
      | some seg =>
          have hc := process_counter_some s e f seg hout
          rw [hc.2] at hr
          simp only [Option.toList_some, List.singleton_append, List.map_cons,
            List.length_cons, hr.1, hr.2]
          refine ⟨?_, by omega⟩
          rw [List.range'_succ, hc.1]

end VadStateMachine

/-- The default-valued head of a non-empty list is one of its elements. -/
theorem headI_mem_of_ne_nil {α : Type} [Inhabited α] (l : List α) (h : l ≠ []) :
    l.headI ∈ l := by
  cases l
  · exact absurd rfl h
  · exact List.mem_cons_self _ _

/-- An option that is `isSome` equals `some` of its `getD` value. -/
theorem option_eq_some_getD {α : Type} (o : Option α) (d : α) (h : o.isSome = true) :
    o = some (o.getD d) := by
  cases o
  · cases h
  · rfl

/-! ### Claim C1: end-of-segment thresholds -/

/-- C1 (amended): starting from `VadStateMachine::new(silence_sec,
max_segment_sec)`, a `process` step emits a segment only when either the
verdict trace ends in at least `silence_threshold` consecutive silence
verdicts — where `silence_threshold` is the *truncation*
`(silence_sec * 31.25) as u32`, 46 frames at the default 1.5 s, not the
ceiling 47 the claim states — or at least `max_frames`
(= `(max_segment_sec * 31.25) as u32`, 1875 at the default 60 s) frames
have been appended since speech began (the machine's
`speech_frame_count` plus the current frame). -/
theorem segmenter_emits_only_at_thresholds (silence_sec : ℚ) (max_segment_sec : ℕ)
    (pre : List (VadEvent × Frame)) (e : VadEvent) (f : Frame) (seg : SpeechSegment)
    (h : ((((VadStateMachine.new silence_sec max_segment_sec).processAll pre).1).process
        e f).2 = some seg) :
    (VadStateMachine.new silence_sec max_segment_sec).silence_threshold
        ≤ trailingSilenceCount (pre.map Prod.fst ++ [e])
    ∨ (VadStateMachine.new silence_sec max_segment_sec).max_frames
        ≤ (((VadStateMachine.new silence_sec max_segment_sec).processAll pre).1).speech_frame_count
            + 1 := by
  have hInv := VadStateMachine.stateInv_processAll pre
    (VadStateMachine.new silence_sec max_segment_sec) [] (VadStateMachine.stateInv_new _ _)
  simp only [List.nil_append] at hInv
  have hcfg := VadStateMachine.processAll_config pre
    (VadStateMachine.new silence_sec max_segment_sec)
  have htrig := VadStateMachine.process_some_trigger _ (pre.map Prod.fst) e f seg hInv h
  rcases htrig.2 with h1 | h2
  · left; rwa [hcfg.1] at h1
  · right; rwa [hcfg.2.1] at h2

section RatKernelReduction

/- Batteries marks the rational-number operations `@[irreducible]`; concrete
evaluation of the segmenter (whose configuration arithmetic is rational) needs
them reducible. -/
attribute [local semireducible] Rat.mul Rat.add Rat.sub Rat.inv Rat.ofScientific

set_option maxRecDepth 100000 in
/-- C1 witness: at the default configuration, the step consuming the 46th
consecutive silence verdict emits a segment, and the theorem's disjunction
holds there (the trailing silence run has reached the code's threshold 46). -/
theorem segmenter_emits_only_at_thresholds_witness :
    (VadStateMachine.new (3 / 2) 60).silence_threshold
        ≤ trailingSilenceCount (c1WitPre.map Prod.fst ++ [VadEvent.silence])
    ∨ (VadStateMachine.new (3 / 2) 60).max_frames
        ≤ (((VadStateMachine.new (3 / 2) 60).processAll c1WitPre).1).speech_frame_count + 1 :=
  segmenter_emits_only_at_thresholds (3 / 2) 60 c1WitPre VadEvent.silence zeroFrame
    c1WitSeg (option_eq_some_getD _ default (by decide))

set_option maxRecDepth 100000 in
/-- C1 counterexample: the claim's thresholds are ⌈1.5 × 31.25⌉ = 47
consecutive silence verdicts or ⌈60 × 31.25⌉ = 1875 frames, but the default
configuration computes `silence_threshold = 46` by Rust float-to-int
truncation, and on a 47-frame input whose longest silence run is 46 a segment
is in fact emitted — before either claimed threshold is reached. -/
theorem segmenter_threshold_counterexample :
    (⌈(3 / 2 : ℚ) * ((16000 : ℚ) / 512)⌉ = 47)
    ∧ (VadStateMachine.new (3 / 2) 60).silence_threshold = 46
    ∧ (⌈(60 : ℚ) * ((16000 : ℚ) / 512)⌉ = 1875)
    ∧ (VadStateMachine.new (3 / 2) 60).max_frames = 1875
    ∧ maxConsecutiveSilence (c1CexInputs.map Prod.fst) = 46
    ∧ c1CexInputs.length = 47
    ∧ (((VadStateMachine.new (3 / 2) 60).processAll c1CexInputs).2).length = 1 := by
  refine ⟨?_, by decide, ?_, by decide, by decide, by decide, by decide⟩
  · rw [show (3 / 2 : ℚ) * ((16000 : ℚ) / 512) = 375 / 8 by norm_num, Int.ceil_eq_iff]
    norm_num
  · rw [show (60 : ℚ) * ((16000 : ℚ) / 512) = 1875 by norm_num]
    norm_num

/-! ### Claim C3: segment sample-count bounds -/

/-- C3 (amended): every segment a session emits (forced splits and the stop
flush included) holds at least 8000 samples (= 0.5 s, shorter accumulations
are discarded), and at most `(max max_frames 2 + pre_buffer_max) * 512`
samples — `max_segment * 16000` plus up to `pre_buffer_max * 512 = 4608`
samples of pre-roll (onset duplicate included), not `max_segment * 16000` as
the claim states. -/
theorem segment_sample_bounds (silence_sec : ℚ) (max_segment_sec : ℕ)
    (inputs : List (VadEvent × Frame))
    (hin : ∀ p ∈ inputs, (Prod.snd p : Frame).length = 512)
    (seg : SpeechSegment)
    (hseg : seg ∈ ((VadStateMachine.new silence_sec max_segment_sec).runSession inputs).2) :
    8000 ≤ seg.totalSamples
    ∧ seg.totalSamples
        ≤ (max (VadStateMachine.new silence_sec max_segment_sec).max_frames 2
            + (VadStateMachine.new silence_sec max_segment_sec).pre_buffer_max) * 512 := by
  have hInv := VadStateMachine.stateInv_processAll inputs
    (VadStateMachine.new silence_sec max_segment_sec) [] (VadStateMachine.stateInv_new _ _)
  simp only [List.nil_append] at hInv
  have h512 := VadStateMachine.frames512_processAll inputs
    (VadStateMachine.new silence_sec max_segment_sec)
    (VadStateMachine.frames512_new _ _) hin
  have hcfg := VadStateMachine.processAll_config inputs
    (VadStateMachine.new silence_sec max_segment_sec)
  simp only [VadStateMachine.runSession, List.mem_append] at hseg
  rcases hseg with hrun | hflush
  · exact VadStateMachine.processAll_samples inputs
      (VadStateMachine.new silence_sec max_segment_sec) []
      (VadStateMachine.stateInv_new _ _) (VadStateMachine.frames512_new _ _) hin seg hrun
  · rcases hb : ((VadStateMachine.new silence_sec max_segment_sec).processAll
        inputs).1.is_speaking with _ | _
    · rw [hb] at hflush; simp at hflush
    · rw [hb] at hflush
      simp only [if_pos rfl, Option.mem_toList] at hflush
      have := VadStateMachine.finalize_some_samples _ (inputs.map Prod.fst) seg hInv h512
        (by simpa using hflush)
      rwa [hcfg.2.1, hcfg.2.2] at this

set_option maxRecDepth 100000 in
/-- C3 witness: at silence_sec = 0.5, a session over one speech verdict and 15
silences emits one segment of 8704 samples, inside the amended bounds. -/
theorem segment_sample_bounds_witness :
    8000 ≤ c3WitSeg.totalSamples
    ∧ c3WitSeg.totalSamples
        ≤ (max (VadStateMachine.new (1 / 2) 60).max_frames 2
            + (VadStateMachine.new (1 / 2) 60).pre_buffer_max) * 512 :=
  segment_sample_bounds (1 / 2) 60 c3WitInputs (by decide) c3WitSeg
    (headI_mem_of_ne_nil _ (by decide))

set_option maxRecDepth 100000 in
/-- C3 counterexample: with max_segment = 1 s the claim allows at most
1 × 16000 samples per segment, but a forced split after a pre-roll frame emits
a segment of 16896 samples (33 frames: one pre-roll frame, the duplicated
onset frame, and 31 counted speech frames). -/
theorem segment_sample_bounds_counterexample :
    ((((VadStateMachine.new 100 1).processAll c3CexInputs).2).map
        SpeechSegment.totalSamples = [16896])
    ∧ 1 * 16000 < 16896 := by
  decide

/-! ### Claim C10: segment indices -/

/-- C10: within one session the indices of the emitted segments (used in the
`segment_<n>.wav` file names) are exactly 1, 2, …, k in order: strictly
increasing from 1 with no gaps, so a speech burst discarded for being shorter
than 0.5 s does not advance the index. -/
theorem segment_indices_strictly_increasing (silence_sec : ℚ) (max_segment_sec : ℕ)
    (inputs : List (VadEvent × Frame)) :
    (((VadStateMachine.new silence_sec max_segment_sec).runSession inputs).2).map
        SpeechSegment.index
      = List.range' 1
          (((VadStateMachine.new silence_sec max_segment_sec).runSession inputs).2).length := by
  have hAll := VadStateMachine.processAll_indices inputs
    (VadStateMachine.new silence_sec max_segment_sec)
  have h0 : (VadStateMachine.new silence_sec max_segment_sec).segment_counter = 0 := rfl
  rw [h0] at hAll
  simp only [Nat.zero_add] at hAll
  simp only [VadStateMachine.runSession]
  split
  · -- still in speech at stop: the flush may emit one more segment
    rcases hfin : (((VadStateMachine.new silence_sec max_segment_sec).processAll
        inputs).1.finalize_segment).2 with _ | seg
    · simp only [Option.toList_none, List.append_nil]
      exact hAll.1
    · have hsome := VadStateMachine.finalize_some _ _ hfin
      simp only [Option.toList_some, List.map_append, List.map_cons, List.map_nil,
        List.length_append, List.length_cons, List.length_nil]
      rw [hAll.1]
      have hidx : seg.index
          = 1 + (((VadStateMachine.new silence_sec max_segment_sec).processAll
              inputs).2).length := by
        rw [hsome.2.2.2.1, hAll.2]
        omega
      rw [hidx, List.range'_concat]
      simp
  · -- idle at stop: nothing flushed
    simp only [Option.toList_none, List.append_nil]
    exact hAll.1

/-! ### Claim C2: pre-roll seeding of a new segment -/

set_option maxRecDepth 100000 in
/-- C2 (code evaluated at the failing input): from Idle, after one
silence-verdict frame `c2SilenceFrame`, processing the speech-verdict frame
`c2SpeechFrame` seeds the segment buffer as
`[c2SilenceFrame, c2SpeechFrame, c2SpeechFrame]`: the pre-roll ring already
contains the current frame when it is drained (the source pushes the frame
before testing the verdict) and the frame is pushed once more, so the onset
frame appears twice and the segment's prefix is not purely pre-onset audio. -/
theorem preroll_duplicates_onset_frame :
    ((((VadStateMachine.new (3 / 2) 60).processAll
        [(VadEvent.silence, c2SilenceFrame)]).1.process
          (VadEvent.speech 1) c2SpeechFrame).1.speech_frames
      = [c2SilenceFrame, c2SpeechFrame, c2SpeechFrame])
    ∧ c2SilenceFrame ≠ c2SpeechFrame := by
  decide

/-! ### Claim C4: the frame producer on a full queue -/

/-- C4 (amended): when the frame queue is full and a complete frame is
buffered, `push_samples` leaves the callback blocked inside `send` holding
the drained frame: the frame is not dropped, the queue is unchanged, and the
accumulator has no drop counter to increment. -/
theorem push_samples_blocks_when_full (acc : FrameAccumulator) (ch : FrameChannel)
    (data : List ℚ)
    (hfull : ch.queued.length = ch.capacity)
    (hlen : STREAM_FRAME_SIZE
      ≤ (acc.output_buffer ++ downmixMono acc.native_channels data).length) :
    acc.push_samples ch data
      = PushResult.blockedInSend
          ((acc.output_buffer ++ downmixMono acc.native_channels data).take STREAM_FRAME_SIZE)
          ((acc.output_buffer ++ downmixMono acc.native_channels data).drop STREAM_FRAME_SIZE)
          ch := by
  have h512 : 0 < STREAM_FRAME_SIZE := by decide
  simp only [FrameAccumulator.push_samples, emitFrames]
  rcases hfuel : (acc.output_buffer ++ downmixMono acc.native_channels data).length with _ | fuel
  · omega
  · simp only [emitFramesAux, if_pos (hfuel ▸ hlen)]
    have hsend : ch.send ((acc.output_buffer ++ downmixMono acc.native_channels data).take
        STREAM_FRAME_SIZE) = none := by
      simp [FrameChannel.send, hfull]
    rw [hsend, if_pos hlen]

set_option maxRecDepth 100000 in
/-- C4 witness: a 512-sample callback against the capacity-256 queue holding
256 frames blocks with the whole frame pending. -/
theorem push_samples_blocks_when_full_witness :
    c4Accumulator.push_samples c4FullChannel c4Data
      = PushResult.blockedInSend
          ((c4Accumulator.output_buffer
              ++ downmixMono c4Accumulator.native_channels c4Data).take STREAM_FRAME_SIZE)
          ((c4Accumulator.output_buffer
              ++ downmixMono c4Accumulator.native_channels c4Data).drop STREAM_FRAME_SIZE)
          c4FullChannel :=
  push_samples_blocks_when_full c4Accumulator c4FullChannel c4Data (by decide) (by decide)

set_option maxRecDepth 100000 in
/-- C4 counterexample: at a full queue the code's outcome is `blockedInSend`
(the callback waits; nothing is dropped, nothing is counted), while the
behavior the claim describes — modelled from its words by
`specEmitFramesNonBlocking` — would return immediately with the frame dropped
and a drop counter incremented to 1. -/
theorem push_samples_full_queue_counterexample :
    (c4Accumulator.push_samples c4FullChannel c4Data
      = PushResult.blockedInSend (List.replicate 512 0) [] c4FullChannel)
    ∧ specEmitFramesNonBlocking
        (c4Accumulator.output_buffer ++ downmixMono c4Accumulator.native_channels c4Data)
        c4FullChannel 0
      = ([], c4FullChannel, 1) := by
  decide

/-! ### Claim C5: what the continuous worker persists -/

/-- C5 (amended): the continuous worker persists an entry exactly when the ASR
result is successful and its trimmed text is non-empty (whitespace-only text
is discarded); the persisted entry carries the trimmed text and the segment
duration. `no_speech` is not consulted on this path. -/
theorem continuous_worker_persistence (serde : List TranscriptionSegment → String)
    (dur : ℚ) (r : TranscriptionResult) :
    ((process_segment serde dur r ≠ none) ↔ (r.success = true ∧ trimString r.text ≠ ""))
    ∧ (∀ en, process_segment serde dur r = some en →
        en.text = trimString r.text ∧ en.duration_seconds = some dur) := by
  rcases hs : r.success with _ | _
  · constructor
    · constructor
      · intro h; exact absurd (by simp [process_segment, hs]) h
      · rintro ⟨hcontra, -⟩; cases hcontra
    · intro en hen
      simp [process_segment, hs] at hen
  · by_cases ht : trimString r.text = ""
    · constructor
      · constructor
        · intro h; exact absurd (by simp [process_segment, hs, ht]) h
        · rintro ⟨-, hcontra⟩; exact absurd ht hcontra
      · intro en hen
        simp [process_segment, hs, ht] at hen
    · constructor
      · constructor
        · intro _; exact ⟨rfl, ht⟩
        · intro _; simp [process_segment, hs, ht]
      · intro en hen
        simp only [process_segment, hs, if_neg, Bool.true_eq_false, if_false, ht,
          Option.some.injEq] at hen
        rw [← hen]
        exact ⟨rfl, rfl⟩

/-- C5 witness: a successful result whose text is `"  hello  "` is persisted
(its trimmed text is non-empty). -/
theorem continuous_worker_persistence_witness :
    process_segment (fun _ => "") 1 c5WitResult ≠ none :=
  (continuous_worker_persistence (fun _ => "") 1 c5WitResult).1.mpr ⟨rfl, by decide⟩

/-- C5 counterexample: a successful result with text `"hello"` and
`no_speech = some true` is persisted by the worker, although the claim says
`no_speech = true` responses are discarded without insertion. -/
theorem worker_ignores_no_speech_counterexample :
    (process_segment (fun _ => "") 1 c5NoSpeechResult).isSome = true
    ∧ c5NoSpeechResult.no_speech = some true := by
  decide

/-! ### Claim C6: paste with clipboard preservation -/

/-- C6 (amended): `paste_with_restore` always pastes the new text, and it
restores the prior clipboard content exactly when that content was non-empty;
when the prior content was the empty string the clipboard is left holding the
pasted text (the source restores "only if there was content"). -/
theorem paste_restore_behavior (o t : String) :
    (paste_with_restore o t).pasted_text = t
    ∧ (o ≠ "" → (paste_with_restore o t).final_clipboard = o)
    ∧ (o = "" → (paste_with_restore o t).final_clipboard = t) := by
  refine ⟨rfl, fun h => ?_, fun h => ?_⟩
  · simp [paste_with_restore, h]
  · simp [paste_with_restore, h]

/-- C6 witness: with prior clipboard `"X"` and text `"hello"`, `"hello"` is
pasted and the final clipboard is `"X"`. -/
theorem paste_restore_behavior_witness :
    (paste_with_restore "X" "hello").pasted_text = "hello"
    ∧ (paste_with_restore "X" "hello").final_clipboard = "X" :=
  ⟨(paste_restore_behavior "X" "hello").1,
   (paste_restore_behavior "X" "hello").2.1 (by decide)⟩

/-- C6 counterexample: with prior clipboard `""` and text `"hello"`, the final
clipboard holds `"hello"`, not the original empty string, so the restoration
claim fails for the empty prior value. -/
theorem paste_restore_empty_counterexample :
    (paste_with_restore "" "hello").final_clipboard = "hello"
    ∧ ¬((paste_with_restore "" "hello").final_clipboard = "") := by
  decide

/-! ### Claim C7: insert / read-back round trip -/

/-- C7: inserting an entry and reading the assigned rowid back returns the
entry's `text`, `duration_seconds`, and `language` (indeed every inserted
column) unchanged, with `id` set to the store-assigned rowid and `created_at`
set by the store; the entry's own `id`/`created_at` are ignored by the INSERT.
The hypothesis is the AUTOINCREMENT invariant: every existing rowid is below
`next_rowid`. -/
theorem history_insert_roundtrip (db : TranscriptionDb) (entry : TranscriptionEntry)
    (now : String) (hwf : ∀ r ∈ db.rows, r.id < db.next_rowid) :
    (db.insert entry now).1.get_entry (db.insert entry now).2
      = some { id := some (db.insert entry now).2
               created_at := now
               duration_seconds := entry.duration_seconds
               text := entry.text
               raw_text := entry.raw_text
               language := entry.language
               model_name := entry.model_name
               segments_json := entry.segments_json } := by
  simp only [TranscriptionDb.insert, TranscriptionDb.get_entry]
  rw [List.find?_append]
  have hnone : db.rows.find? (fun r => r.id == db.next_rowid) = none := by
    rw [List.find?_eq_none]
    intro r hr
    simp only [beq_iff_eq]
    exact (hwf r hr).ne
  rw [hnone]
  simp [TranscriptionDb.row_to_entry]

/-- C7 witness: inserting a sample entry into a fresh store and reading rowid 1
back returns the sample's text, duration, and language unchanged. -/
theorem history_insert_roundtrip_witness :
    (TranscriptionDb.openEmpty.insert c7SampleEntry "2026-10-12 12:00:00").1.get_entry
        (TranscriptionDb.openEmpty.insert c7SampleEntry "2026-10-12 12:00:00").2
      = some { id := some (TranscriptionDb.openEmpty.insert c7SampleEntry
                  "2026-10-12 12:00:00").2
               created_at := "2026-10-12 12:00:00"
               duration_seconds := c7SampleEntry.duration_seconds
               text := c7SampleEntry.text
               raw_text := c7SampleEntry.raw_text
               language := c7SampleEntry.language
               model_name := c7SampleEntry.model_name
               segments_json := c7SampleEntry.segments_json } :=
  history_insert_roundtrip TranscriptionDb.openEmpty c7SampleEntry "2026-10-12 12:00:00"
    (by intro r hr; exact absurd hr (List.not_mem_nil r))

/-! ### Claim C8: search path dispatch -/

/-- C8: `search` takes the FTS5 full-text path exactly when the query has at
least 3 characters (Unicode scalar count, Rust `chars().count()`), and the
LIKE substring fallback exactly when it has fewer; a 2-character query takes
the fallback and a 3-character query the full-text path. -/
theorem search_path_dispatch :
    (∀ q : String, TranscriptionDb.searchPath q = TranscriptionDb.SearchPath.fts5
        ↔ 3 ≤ q.length)
    ∧ (∀ q : String, TranscriptionDb.searchPath q = TranscriptionDb.SearchPath.likeFallback
        ↔ q.length < 3)
    ∧ TranscriptionDb.searchPath "ab" = TranscriptionDb.SearchPath.likeFallback
    ∧ TranscriptionDb.searchPath "abc" = TranscriptionDb.SearchPath.fts5 := by
  refine ⟨fun q => ?_, fun q => ?_, by decide, by decide⟩
  · unfold TranscriptionDb.searchPath
    split <;> rename_i h <;> simp [h]
  · unfold TranscriptionDb.searchPath
    split <;> rename_i h
    · constructor
      · intro hcontra
        exact absurd hcontra (by simp)
      · intro hlt
        exact absurd hlt (by omega)
    · constructor
      · intro hlt
        omega
      · intro hlt
        rfl

/-- C8 witness: the dispatch applied at 2- and 3-character queries, a
2-character CJK query included. -/
theorem search_path_dispatch_witness :
    TranscriptionDb.searchPath "ab" = TranscriptionDb.SearchPath.likeFallback
    ∧ TranscriptionDb.searchPath "天気" = TranscriptionDb.SearchPath.likeFallback
    ∧ TranscriptionDb.searchPath "abc" = TranscriptionDb.SearchPath.fts5 :=
  ⟨(search_path_dispatch.2.1 "ab").mpr (by decide),
   (search_path_dispatch.2.1 "天気").mpr (by decide),
   (search_path_dispatch.1 "abc").mpr (by decide)⟩

/-! ### Claim C9: hotkey validation -/

set_option maxRecDepth 100000 in
/-- C9: `validate_hotkey` rejects every single printable (ASCII) alphanumeric
key without modifiers, and accepts the function keys F1 through F24, the
standalone `fn` key, and modifier combinations such as `cmd+space`
(registration proceeds past validation exactly on acceptance). -/
theorem hotkey_validation :
    (∀ c ∈ asciiAlphanumerics, validate_hotkey (String.singleton c) = false)
    ∧ (∀ n ∈ List.range' 1 24, validate_hotkey ("F" ++ toString n) = true)
    ∧ validate_hotkey "fn" = true
    ∧ validate_hotkey "cmd+space" = true := by
  decide

/-- C9 witness: the single key `"a"` is rejected and `"F7"` is accepted. -/
theorem hotkey_validation_witness :
    validate_hotkey (String.singleton 'a') = false
    ∧ validate_hotkey ("F" ++ toString 7) = true :=
  ⟨hotkey_validation.1 'a' (by decide),
   hotkey_validation.2.1 7 (by decide)⟩

end RatKernelReduction

end Echo
